import Mathlib

/-!
Verification of the producer-network application (app.py).

The development shallowly embeds the five core functions of the program:
`has_producer_credits`, `extract_producers`, `find_original_song_with_credits`,
`process_songs` and `build_producer_network`.  External HTTP calls are
modelled as oracle parameters (search results and a detail-fetch function),
and Python dicts appearing as records are modelled as structures whose
possibly-absent keys are `Option` fields.
-/

/-- Boolean test that `needle` is a prefix of `hay` (character lists). -/
def listIsPre (needle hay : List Char) : Bool :=
  match needle, hay with
  | [], _ => true
  | _ :: _, [] => false
  | a :: as, b :: bs => a == b && listIsPre as bs

/-- Boolean test that `needle` occurs as a contiguous substring of `hay`. -/
def listHasSub (hay needle : List Char) : Bool :=
  match hay with
  | [] => needle.isEmpty
  | _ :: t => listIsPre needle (hay) || listHasSub t needle

/-- Python's `needle in hay` on strings: contiguous-substring containment. -/
def strContainsSub (hay needle : String) : Bool :=
  listHasSub hay.data needle.data

/-- Python's `str.lower()`, modelled character-wise (ASCII case folding,
which is all the marker and label tests rely on). -/
def lowerStr (s : String) : String :=
  ⟨s.data.map Char.toLower⟩

/-- An artist entry as read by the program: numeric id, name, and a `url`
key that may be absent (Python `artist.get('url', '')`). -/
structure Artist where
  id : Nat
  name : String
  url : Option String
deriving DecidableEq, Repr

/-- One entry of a song detail's `custom_performances` list. -/
structure Performance where
  label : String
  artists : List Artist
deriving DecidableEq, Repr

/-- The fields of a Genius song-detail record that the program reads.
`none` models the key being absent from the dict. -/
structure SongDetails where
  custom_performances : Option (List Performance)
  producer_artists : Option (List Artist)
deriving DecidableEq, Repr

/-- Embedding of `has_producer_credits(song_details)` (app.py lines 99-114).
`none` models Python `None`. -/
def has_producer_credits (song_details : Option SongDetails) : Bool :=
  match song_details with
  | none => false
  | some d =>
    (match d.custom_performances with
     | some perfs =>
       perfs.any (fun performance => strContainsSub (lowerStr performance.label) "producer")
     | none => false)
    ||
    (match d.producer_artists with
     | some pas => !pas.isEmpty
     | none => false)

/-- A producer reference as built by `extract_producers`: string id
(Python `str(artist['id'])`), name, and url defaulted to the empty string. -/
structure ProducerRef where
  id : String
  name : String
  url : String
deriving DecidableEq, Repr

/-- Conversion of an artist dict to the producer dict appended by
`extract_producers`: id stringified, missing url replaced by "". -/
def toRef (a : Artist) : ProducerRef :=
  { id := toString a.id, name := a.name, url := a.url.getD "" }

/-- Appending one producer unless its id was already seen; the Python code
keeps a `seen_ids` set that always equals the set of ids in the accumulated
list, so membership in the accumulator models it. -/
def addProducer (acc : List ProducerRef) (r : ProducerRef) : List ProducerRef :=
  if acc.any (fun p => p.id == r.id) then acc else acc ++ [r]

/-- The label test of `extract_producers` (app.py line 129). -/
def isProducerLabel (label : String) : Bool :=
  strContainsSub (lowerStr label) "producer" || strContainsSub (lowerStr label) "produced"

/-- Embedding of `extract_producers(song_details)` (app.py lines 117-152). -/
def extract_producers (song_details : Option SongDetails) : List ProducerRef :=
  match song_details with
  | none => []
  | some d =>
    let fromPerfs : List ProducerRef :=
      match d.custom_performances with
      | none => []
      | some perfs =>
        perfs.foldl
          (fun acc performance =>
            if isProducerLabel performance.label then
              performance.artists.foldl (fun acc2 a => addProducer acc2 (toRef a)) acc
            else acc)
          []
    match d.producer_artists with
    | none => fromPerfs
    | some pas => pas.foldl (fun acc p => addProducer acc (toRef p)) fromPerfs

/-- One search hit, holding the fields the program reads from
`hit['result']`: `id`, `title`, `primary_artist.name`. -/
structure Hit where
  id : Nat
  title : String
  primary_artist : String
deriving DecidableEq, Repr

/-- The dict returned by `find_original_song_with_credits` on success. -/
structure ResolvedSong where
  song_id : Nat
  song_name : String
  artist : String
  song_details : Option SongDetails
deriving DecidableEq, Repr

/-- The marker substrings of app.py line 50. -/
def skipKeywords : List String :=
  ["translation", "romanized", "english ver", "japanese ver"]

/-- The title filter of app.py lines 49-50: does the lowered title contain
one of the marker substrings? -/
def isSkippedTitle (title : String) : Bool :=
  skipKeywords.any (fun keyword => strContainsSub (lowerStr title) keyword)

/-- The candidate loop of `find_original_song_with_credits` (app.py lines
42-66).  `details` is the oracle for `get_song_details`: `none` models a
transport/parse failure there (the function catches its own exceptions and
returns `None`). -/
def scanHits (details : Nat → Option SongDetails) : List Hit → Option ResolvedSong
  | [] => none
  | hit :: rest =>
    if isSkippedTitle hit.title then
      scanHits details rest
    else
      let song_details := details hit.id
      if song_details.isSome && has_producer_credits song_details then
        some ⟨hit.id, hit.title, hit.primary_artist, song_details⟩
      else
        scanHits details rest

/-- Embedding of `find_original_song_with_credits` (app.py lines 23-82).
`searchResult = none` models an exception raised by the initial search call
(request failure, HTTP error status, or JSON shape error), which the
surrounding `try` turns into a `None` return; `some hits` is the parsed hit
list.  Inside the loop `get_song_details` never raises (it catches its own
exceptions), so the oracle `details` is total. -/
def find_original_song_with_credits
    (searchResult : Option (List Hit)) (details : Nat → Option SongDetails) :
    Option ResolvedSong :=
  match searchResult with
  | none => none
  | some hits =>
    match hits with
    | [] => none
    | first :: _ =>
      match scanHits details (hits.take 10) with
      | some r => some r
      | none => some ⟨first.id, first.title, first.primary_artist, details first.id⟩

/-- One element of the caller-supplied songs list. -/
structure SongQuery where
  title : String
  artist : String
deriving DecidableEq, Repr

/-- The per-song dict assembled by `process_songs` (app.py lines 173-179). -/
structure SongCreditRecord where
  song_id : Nat
  song_name : String
  artist : String
  producers : List ProducerRef
  producer_count : Nat
deriving DecidableEq, Repr

/-- The record `process_songs` appends for one resolved song. -/
def mkRecord (info : ResolvedSong) : SongCreditRecord :=
  let producers := extract_producers info.song_details
  ⟨info.song_id, info.song_name, info.artist, producers, producers.length⟩

/-- Embedding of `process_songs` (app.py lines 155-189).  `resolve` is the
oracle for `find_original_song_with_credits` on a given (title, artist)
query; `none` models the not-found outcome. -/
def process_songs (resolve : String → String → Option ResolvedSong)
    (songs_list : List SongQuery) : List SongCreditRecord :=
  songs_list.foldl
    (fun songs_data song =>
      match resolve song.title song.artist with
      | some info => songs_data ++ [mkRecord info]
      | none => songs_data)
    []

/-- One edge of a producer node (app.py lines 233-237). -/
structure SongEdge where
  song_id : Nat
  song_name : String
  collaborators : List String
deriving DecidableEq, Repr

/-- The per-producer accumulator of `build_producer_network`: the defaultdict
value (app.py lines 197-204).  `id`, `name`, `url` start as Python `None`,
modelled by `none`; `unique_collaborators` is a Python set, modelled by a
`Finset`. -/
structure NodeState where
  id : Option String
  name : Option String
  url : Option String
  edges : List SongEdge
  total_collaborations : Nat
  unique_collaborators : Finset String
deriving DecidableEq

/-- The defaultdict default value (app.py lines 197-204). -/
def defaultNode : NodeState :=
  ⟨none, none, none, [], 0, ∅⟩

/-- Reading `producer_network[p_id]`: the stored entry, or the default. -/
def getNode (m : List (String × NodeState)) (k : String) : NodeState :=
  match m.find? (fun e => e.1 == k) with
  | some e => e.2
  | none => defaultNode

/-- Writing back the mutated entry.  A Python dict keeps insertion order:
an existing key is updated in place, a new key is appended at the end
(defaultdict inserts the entry on first access). -/
def setNode (m : List (String × NodeState)) (k : String) (v : NodeState) :
    List (String × NodeState) :=
  if m.any (fun e => e.1 == k) then
    m.map (fun e => if e.1 == k then (k, v) else e)
  else
    m ++ [(k, v)]

/-- The mutation of one node's accumulator for one producer of one song
(app.py lines 218-241): initialize the node's identity fields if unset
(`['id'] is None`), then append the edge and update the statistics. -/
def stepState (song_id : Nat) (song_name : String) (producer_ids : List String)
    (p : ProducerRef) (st0 : NodeState) : NodeState :=
  let st1 :=
    if st0.id = none then
      { st0 with id := some p.id, name := some p.name, url := some p.url }
    else st0
  let collaborators := producer_ids.filter (fun pid => pid ≠ p.id)
  { st1 with
    edges := st1.edges ++ [⟨song_id, song_name, collaborators⟩],
    total_collaborations := st1.total_collaborations + collaborators.length,
    unique_collaborators := st1.unique_collaborators ∪ collaborators.toFinset }

/-- The body of the inner loop of `build_producer_network` (app.py lines
218-241) for one producer: read the entry (creating the default on first
access, as the defaultdict does), mutate it, write it back. -/
def producerStep (song_id : Nat) (song_name : String) (producer_ids : List String)
    (m : List (String × NodeState)) (p : ProducerRef) : List (String × NodeState) :=
  setNode m p.id (stepState song_id song_name producer_ids p (getNode m p.id))

/-- The body of the outer loop of `build_producer_network` (app.py lines
206-241) for one song record: records with fewer than 2 producers are
skipped entirely. -/
def songStep (m : List (String × NodeState)) (song : SongCreditRecord) :
    List (String × NodeState) :=
  if song.producers.length < 2 then m
  else
    let producer_ids := song.producers.map (fun p => p.id)
    song.producers.foldl (producerStep song.song_id song.song_name producer_ids) m

/-- The finalized node (app.py lines 244-254). -/
structure ProducerNode where
  id : Option String
  name : Option String
  url : Option String
  edges : List SongEdge
  total_songs : Nat
  total_collaborations : Nat
  unique_collaborators_count : Nat
deriving DecidableEq

/-- The finalization of one accumulator entry (app.py lines 246-254). -/
def finalizeNode (st : NodeState) : ProducerNode :=
  ⟨st.id, st.name, st.url, st.edges, st.edges.length,
   st.total_collaborations, st.unique_collaborators.card⟩

/-- Embedding of `build_producer_network` (app.py lines 192-256).  The
result is the output dict as an insertion-ordered association list. -/
def build_producer_network (songs_data : List SongCreditRecord) :
    List (String × ProducerNode) :=
  (songs_data.foldl songStep []).map (fun e => (e.1, finalizeNode e.2))

/-- The stream of producer occurrences actually processed by the builder:
records in input order, those with fewer than 2 producers contributing
nothing, the others contributing their producer list in order. -/
def effStream (records : List SongCreditRecord) : List ProducerRef :=
  (records.map (fun r => if r.producers.length < 2 then [] else r.producers)).flatten

/-- The first occurrence of producer id `k` in the processed stream. -/
def firstOcc (records : List SongCreditRecord) (k : String) : Option ProducerRef :=
  (effStream records).find? (fun q => q.id == k)

/-- A node accumulator with the name and url forgotten (used to state that
the network's other fields do not depend on names and urls). -/
def stripSt (st : NodeState) : NodeState :=
  { st with name := none, url := none }

/-- A finalized node with the name and url forgotten. -/
def stripNode (n : ProducerNode) : ProducerNode :=
  { n with name := none, url := none }

/-- A producer reference with the name and url blanked, id kept. -/
def erasePR (p : ProducerRef) : ProducerRef :=
  { p with name := "", url := "" }

/-- A record whose producers all have blanked names and urls. -/
def eraseRecord (r : SongCreditRecord) : SongCreditRecord :=
  { r with producers := r.producers.map erasePR }

/-- An input list with every producer name and url blanked. -/
def eraseRecords (records : List SongCreditRecord) : List SongCreditRecord :=
  records.map eraseRecord

/-- Stated from the spec's description of the extraction order: the raw
stream of producer references, custom-performance entries with producer
labels first (each contributing its artists in listing order), then the
dedicated producer-artist list. -/
def specProducerStream (d : SongDetails) : List ProducerRef :=
  (((d.custom_performances.getD []).filter
        (fun performance => isProducerLabel performance.label)).map
      (fun performance => performance.artists.map toRef)).flatten
    ++ (d.producer_artists.getD []).map toRef

/-- Stated from the spec's description of the result order: keep the first
occurrence of each id, in stream order. -/
def firstSeenDedup (l : List ProducerRef) : List ProducerRef :=
  l.foldl addProducer []

/-- The running statistics of a node accumulator agree with its edge list:
the unique-collaborator set is the set of all collaborator ids over the
edges and the collaboration total is the sum of the edge collaborator-list
lengths. -/
def statsInv (st : NodeState) : Prop :=
  st.unique_collaborators = ((st.edges.map (fun e => e.collaborators)).flatten).toFinset ∧
    st.total_collaborations = (st.edges.map (fun e => e.collaborators.length)).sum

/-- Relation between the builder's accumulated map and the stream of
producer occurrences processed so far: the map has an entry exactly for the
seen ids, each entry records its own key as its id, and each entry's name
and url are those of the first occurrence of its id in the stream. -/
def nameInv (seen : List ProducerRef) (m : List (String × NodeState)) : Prop :=
  (∀ k : String, k ∈ m.map Prod.fst ↔ k ∈ seen.map (fun q => q.id)) ∧
    (∀ e ∈ m, e.2.id = some e.1 ∧
      ∃ p, seen.find? (fun q => q.id == e.1) = some p ∧
        e.2.name = some p.name ∧ e.2.url = some p.url)

/-- A song detail whose only producer signal is the dedicated
producer-artist list; it has producer credits. -/
def translationDetails : SongDetails :=
  ⟨none, some [⟨7, "Prod", none⟩]⟩

/-- Unfolding of the resolver on a non-empty hit list. -/
theorem find_original_cons (first : Hit) (more : List Hit)
    (details : Nat → Option SongDetails) :
    find_original_song_with_credits (some (first :: more)) details
      = match scanHits details ((first :: more).take 10) with
        | some r => some r
        | none => some ⟨first.id, first.title, first.primary_artist, details first.id⟩ := rfl

/-- C5: `has_producer_credits` returns true if and only if some entry of the
custom-performance list has a label containing "producer" case-insensitively,
or the dedicated producer-artist list is non-empty; with neither it returns
false. -/
theorem has_producer_credits_iff (d : SongDetails) :
    has_producer_credits (some d) = true ↔
      ((∃ performance ∈ d.custom_performances.getD [],
          strContainsSub (lowerStr performance.label) "producer" = true) ∨
        d.producer_artists.getD [] ≠ []) := by
  cases hc : d.custom_performances <;> cases hp : d.producer_artists <;>
    simp [has_producer_credits, hc, hp, List.any_eq_true]

/-- C9: `has_producer_credits` false does not imply `extract_producers`
empty: a record whose only producer-related label is "Produced By" (which
contains "produced" but not "producer") and whose producer-artist list is
absent yields no credits yet a non-empty producer list. -/
theorem has_credits_false_extract_nonempty :
    has_producer_credits
        (some ⟨some [⟨"Produced By", [⟨1, "A", none⟩]⟩], none⟩) = false ∧
      extract_producers
        (some ⟨some [⟨"Produced By", [⟨1, "A", none⟩]⟩], none⟩) ≠ [] := by
  decide

/-- C1: a record whose producer count (the length of its producer list) is
below 2 is skipped by `build_producer_network`: the built network is the
one of the list with the record removed. -/
theorem build_skip_short_record (rs1 rs2 : List SongCreditRecord)
    (r : SongCreditRecord) (hcount : r.producer_count = r.producers.length)
    (hlt : r.producer_count < 2) :
    build_producer_network (rs1 ++ r :: rs2) = build_producer_network (rs1 ++ rs2) := by
  have hskip : ∀ m, songStep m r = m := by
    intro m
    unfold songStep
    rw [if_pos]
    omega
  unfold build_producer_network
  rw [List.foldl_append, List.foldl_append, List.foldl_cons, hskip]

/-- Witness for C1 at a concrete solo-produced record. -/
theorem build_skip_short_record_witness :
    build_producer_network ([] ++ (⟨1, "S", "a", [⟨"P1", "n", ""⟩], 1⟩ : SongCreditRecord) :: [])
      = build_producer_network ([] ++ []) :=
  build_skip_short_record [] [] ⟨1, "S", "a", [⟨"P1", "n", ""⟩], 1⟩ (by decide) (by decide)

/-- Accumulator characterization of the `process_songs` loop. -/
theorem process_songs_foldl_eq (resolve : String → String → Option ResolvedSong) :
    ∀ (l : List SongQuery) (acc : List SongCreditRecord),
      l.foldl
          (fun songs_data song =>
            match resolve song.title song.artist with
            | some info => songs_data ++ [mkRecord info]
            | none => songs_data)
          acc

        = acc ++ l.filterMap (fun song => (resolve song.title song.artist).map mkRecord) := by
  intro l
  induction l with
  | nil => intro acc; simp
  | cons q rest ih =>
    intro acc
    cases h : resolve q.title q.artist <;>
      simp [h, ih, List.filterMap_cons]

/-- C6: `process_songs` returns exactly the resolved queries in input order
(unresolved queries dropped, each query handled independently of the
others), so its length never exceeds the input length. -/
theorem process_songs_spec (resolve : String → String → Option ResolvedSong)
    (songs_list : List SongQuery) :
    process_songs resolve songs_list
        = songs_list.filterMap (fun song => (resolve song.title song.artist).map mkRecord) ∧
      (process_songs resolve songs_list).length ≤ songs_list.length := by
  have h : process_songs resolve songs_list
      = songs_list.filterMap (fun song => (resolve song.title song.artist).map mkRecord) := by
    unfold process_songs
    simpa using process_songs_foldl_eq resolve songs_list []
  refine ⟨h, ?_⟩
  rw [h]
  exact List.length_filterMap_le _ _

/-- C7: a failing initial search resolves to not-found; a failing detail
fetch only discards that candidate (the scan continues on the rest); and
with a non-empty hit list resolution always produces a result (candidate or
fallback), never a fatal error. -/
theorem resolution_error_handling (details : Nat → Option SongDetails)
    (hit first : Hit) (rest more : List Hit)
    (hfail : details hit.id = none) :
    find_original_song_with_credits none details = none ∧
      scanHits details (hit :: rest) = scanHits details rest ∧
      (find_original_song_with_credits (some (first :: more)) details).isSome = true := by
  refine ⟨rfl, ?_, ?_⟩
  · by_cases h : isSkippedTitle hit.title = true
    · simp [scanHits, h]
    · simp [scanHits, h, hfail]
  · rw [find_original_cons]
    cases hscan : scanHits details ((first :: more).take 10) <;> simp

/-- Witness for C7 at the oracle that fails every detail fetch. -/
theorem resolution_error_handling_witness :
    find_original_song_with_credits none (fun _ => none) = none ∧
      scanHits (fun _ => none) ((⟨0, "t", "a"⟩ : Hit) :: []) = scanHits (fun _ => none) [] ∧
      (find_original_song_with_credits (some ((⟨1, "s", "b"⟩ : Hit) :: [])) (fun _ => none)).isSome
        = true :=
  resolution_error_handling (fun _ => none) ⟨0, "t", "a"⟩ ⟨1, "s", "b"⟩ [] [] rfl

/-- C2 counterexample: a single marker-titled hit with full producer
credits is nevertheless returned as the resolved song, because the fallback
(app.py lines 68-78) returns the first hit regardless of title markers. -/
theorem marker_hit_selected_counterexample :
    isSkippedTitle "Song (English Translation)" = true ∧
      has_producer_credits (some translationDetails) = true ∧
      find_original_song_with_credits
          (some [⟨1, "Song (English Translation)", "A"⟩])
          (fun _ => some translationDetails)
        = some ⟨1, "Song (English Translation)", "A", some translationDetails⟩ := by
  decide

/-- A song selected by the candidate scan never has a marker title. -/
theorem scanHits_result_not_skipped (details : Nat → Option SongDetails) :
    ∀ (l : List Hit) (r : ResolvedSong),
      scanHits details l = some r → isSkippedTitle r.song_name = false := by
  intro l
  induction l with
  | nil => intro r h; simp [scanHits] at h
  | cons hit rest ih =>
    intro r h
    by_cases hskip : isSkippedTitle hit.title = true
    · exact ih r (by simpa [scanHits, hskip] using h)
    · rw [Bool.not_eq_true] at hskip
      by_cases hcred : ((details hit.id).isSome && has_producer_credits (details hit.id)) = true
      · have hr : r = ⟨hit.id, hit.title, hit.primary_artist, details hit.id⟩ := by
          have := h
          simp [scanHits, hskip, hcred] at this
          exact this.symm
        rw [hr]
        exact hskip
      · rw [Bool.not_eq_true] at hcred
        exact ih r (by simpa [scanHits, hskip, hcred] using h)

/-- C2 amended: a marker-titled hit is never selected by the candidate
scan; when the resolved song carries a marker title it can only be the
fallback, i.e. the scan found nothing and the result is the first hit with
its (best-effort) details. -/
theorem marker_title_only_from_fallback (hits : List Hit)
    (details : Nat → Option SongDetails) (r : ResolvedSong)
    (hres : find_original_song_with_credits (some hits) details = some r)
    (hmarker : isSkippedTitle r.song_name = true) :
    scanHits details (hits.take 10) = none ∧
      hits.head? = some ⟨r.song_id, r.song_name, r.artist⟩ ∧
      r.song_details = details r.song_id := by
  cases hits with
  | nil => simp [find_original_song_with_credits] at hres
  | cons first more =>
    rw [find_original_cons] at hres
    cases hscan : scanHits details ((first :: more).take 10) with
    | some found =>
      rw [hscan] at hres
      have hr : r = found := by
        simpa using hres.symm
      have hnot := scanHits_result_not_skipped details _ found hscan
      rw [hr] at hmarker
      rw [hnot] at hmarker
      cases hmarker
    | none =>
      rw [hscan] at hres
      have hr : r = ⟨first.id, first.title, first.primary_artist, details first.id⟩ := by
        simpa using hres.symm
      subst hr
      exact ⟨rfl, rfl, rfl⟩

/-- Witness for the amended C2 at the counterexample input. -/
theorem marker_title_only_from_fallback_witness :
    scanHits (fun _ => some translationDetails)
        ([(⟨1, "Song (English Translation)", "A"⟩ : Hit)].take 10) = none ∧
      [(⟨1, "Song (English Translation)", "A"⟩ : Hit)].head?
        = some ⟨1, "Song (English Translation)", "A"⟩ ∧
      (some translationDetails : Option SongDetails) = (fun _ => some translationDetails) 1 :=
  marker_title_only_from_fallback [⟨1, "Song (English Translation)", "A"⟩]
    (fun _ => some translationDetails)
    ⟨1, "Song (English Translation)", "A", some translationDetails⟩
    (by decide) (by decide)

/-- Every entry of an updated map is the written pair or an old entry. -/
theorem setNode_mem {m : List (String × NodeState)} {k : String} {v : NodeState}
    {e : String × NodeState} (h : e ∈ setNode m k v) : e = (k, v) ∨ e ∈ m := by
  unfold setNode at h
  by_cases hp : m.any (fun e => e.1 == k) = true
  · rw [if_pos hp] at h
    rcases List.mem_map.mp h with ⟨e0, he0, heq⟩
    by_cases hk : (e0.1 == k) = true
    · left
      rw [← heq, if_pos hk]
    · right
      rw [← heq, if_neg hk]
      exact he0
  · rw [if_neg hp] at h
    rcases List.mem_append.mp h with h1 | h1
    · right; exact h1
    · left; simpa using h1

/-- A read either returns a stored entry's value or the default. -/
theorem getNode_cases (m : List (String × NodeState)) (k : String) :
    (∃ e ∈ m, getNode m k = e.2) ∨ getNode m k = defaultNode := by
  unfold getNode
  cases hf : m.find? (fun e => e.1 == k) with
  | none => right; rfl
  | some e => left; exact ⟨e, List.mem_of_find?_eq_some hf, rfl⟩

/-- A per-node property preserved by the state update (from a previously
stored state or from the default) holds for every entry after the inner
producer loop. -/
theorem producers_fold_inv (P : NodeState → Prop)
    (hstep : ∀ sid sname pids p st,
      (P st ∨ st = defaultNode) → P (stepState sid sname pids p st))
    (sid : Nat) (sname : String) (pids : List String) :
    ∀ (producers : List ProducerRef) (m : List (String × NodeState)),
      (∀ e ∈ m, P e.2) →
      ∀ e ∈ producers.foldl (producerStep sid sname pids) m, P e.2 := by
  intro producers
  induction producers with
  | nil => intro m hm e he; exact hm e he
  | cons p ps ih =>
    intro m hm e he
    refine ih (producerStep sid sname pids m p) ?_ e he
    intro e' he'
    rcases setNode_mem he' with heq | hmem
    · rw [heq]
      rcases getNode_cases m p.id with ⟨e0, he0, hget⟩ | hget
      · refine hstep sid sname pids p _ (Or.inl ?_)
        rw [hget]
        exact hm e0 he0
      · exact hstep sid sname pids p _ (Or.inr hget)
    · exact hm e' hmem

/-- A per-node property as in `producers_fold_inv` holds for every entry
after the full song loop. -/
theorem songs_fold_inv (P : NodeState → Prop)
    (hstep : ∀ sid sname pids p st,
      (P st ∨ st = defaultNode) → P (stepState sid sname pids p st)) :
    ∀ (records : List SongCreditRecord) (m : List (String × NodeState)),
      (∀ e ∈ m, P e.2) →
      ∀ e ∈ records.foldl songStep m, P e.2 := by
  intro records
  induction records with
  | nil => intro m hm e he; exact hm e he
  | cons r rs ih =>
    intro m hm e he
    refine ih (songStep m r) ?_ e he
    intro e' he'
    unfold songStep at he'
    by_cases hlen : r.producers.length < 2
    · rw [if_pos hlen] at he'
      exact hm e' he'
    · rw [if_neg hlen] at he'
      exact producers_fold_inv P hstep _ _ _ r.producers m hm e' he'

/-- Every node of the built network is the finalization of an accumulator
satisfying any property preserved by the state update. -/
theorem build_mem_inv (P : NodeState → Prop)
    (hstep : ∀ sid sname pids p st,
      (P st ∨ st = defaultNode) → P (stepState sid sname pids p st))
    (records : List SongCreditRecord) (k : String) (node : ProducerNode)
    (hmem : (k, node) ∈ build_producer_network records) :
    ∃ st : NodeState, P st ∧ node = finalizeNode st := by
  unfold build_producer_network at hmem
  rcases List.mem_map.mp hmem with ⟨e, he, heq⟩
  refine ⟨e.2, songs_fold_inv P hstep records [] (by simp) e he, ?_⟩
  have h2 := congrArg Prod.snd heq
  simpa using h2.symm

/-- C10: the built network has no isolated producer: every node has at
least one edge, hence at least one song. -/
theorem no_isolated_node (records : List SongCreditRecord) (k : String)
    (node : ProducerNode) (hmem : (k, node) ∈ build_producer_network records) :
    1 ≤ node.total_songs ∧ node.edges ≠ [] := by
  have hstep : ∀ sid sname pids p st,
      ((fun st : NodeState => st.edges ≠ []) st ∨ st = defaultNode) →
      (fun st : NodeState => st.edges ≠ []) (stepState sid sname pids p st) := by
    intro sid sname pids p st _
    simp only [stepState]
    by_cases hid : st.id = none <;> simp [hid]
  rcases build_mem_inv _ hstep records k node hmem with ⟨st, hP, hnode⟩
  rw [hnode]
  refine ⟨?_, hP⟩
  have : 0 < st.edges.length := List.length_pos.mpr hP
  simpa [finalizeNode] using this

/-- Witness for C10 on a concrete two-producer record. -/
theorem no_isolated_node_witness :
    1 ≤ (⟨some "P1", some "n1", some "", [⟨1, "S1", ["P2"]⟩], 1, 1, 1⟩ : ProducerNode).total_songs ∧
      (⟨some "P1", some "n1", some "", [⟨1, "S1", ["P2"]⟩], 1, 1, 1⟩ : ProducerNode).edges ≠ [] :=
  no_isolated_node [⟨1, "S1", "a", [⟨"P1", "n1", ""⟩, ⟨"P2", "n2", ""⟩], 2⟩] "P1"
    ⟨some "P1", some "n1", some "", [⟨1, "S1", ["P2"]⟩], 1, 1, 1⟩ (by decide)

/-- The statistics invariant is preserved by the per-producer update. -/
theorem statsInv_step (sid : Nat) (sname : String) (pids : List String)
    (p : ProducerRef) (st : NodeState) (hst : statsInv st ∨ st = defaultNode) :
    statsInv (stepState sid sname pids p st) := by
  have hbase : statsInv st := by
    rcases hst with h | h
    · exact h
    · rw [h]
      exact ⟨by simp [defaultNode], by simp [defaultNode]⟩
  obtain ⟨h1, h2⟩ := hbase
  unfold statsInv stepState
  by_cases hid : st.id = none <;>
    simp [hid, h1, h2, List.toFinset_append]

/-- C3: for every node of the built network, the unique-collaborators count
is the number of distinct collaborator ids across its edges (duplicates
across songs counted once), while the collaboration total is the sum of the
collaborator-list lengths over its edges. -/
theorem node_stats_from_edges (records : List SongCreditRecord) (k : String)
    (node : ProducerNode) (hmem : (k, node) ∈ build_producer_network records) :
    node.unique_collaborators_count
        = ((node.edges.map (fun e => e.collaborators)).flatten).toFinset.card ∧
      node.total_collaborations
        = (node.edges.map (fun e => e.collaborators.length)).sum := by
  rcases build_mem_inv statsInv statsInv_step records k node hmem with ⟨st, ⟨h1, h2⟩, hnode⟩
  rw [hnode]
  constructor
  · simpa [finalizeNode] using congrArg Finset.card h1
  · simpa [finalizeNode] using h2

/-- Witness for C3 on the two-song scenario: the shared producer P2 has two
edges, two total collaborations and two distinct collaborators. -/
theorem node_stats_from_edges_witness :
    (⟨some "P2", some "n2", some "", [⟨1, "S1", ["P1"]⟩, ⟨2, "S2", ["P3"]⟩], 2, 2, 2⟩ :
          ProducerNode).unique_collaborators_count
        = ((([⟨1, "S1", ["P1"]⟩, ⟨2, "S2", ["P3"]⟩] : List SongEdge).map
              (fun e => e.collaborators)).flatten).toFinset.card ∧
      (⟨some "P2", some "n2", some "", [⟨1, "S1", ["P1"]⟩, ⟨2, "S2", ["P3"]⟩], 2, 2, 2⟩ :
          ProducerNode).total_collaborations
        = (([⟨1, "S1", ["P1"]⟩, ⟨2, "S2", ["P3"]⟩] : List SongEdge).map
            (fun e => e.collaborators.length)).sum :=
  node_stats_from_edges
    [⟨1, "S1", "a", [⟨"P1", "n1", ""⟩, ⟨"P2", "n2", ""⟩], 2⟩,
     ⟨2, "S2", "a", [⟨"P2", "n2", ""⟩, ⟨"P3", "n3", ""⟩], 2⟩]
    "P2"
    ⟨some "P2", some "n2", some "", [⟨1, "S1", ["P1"]⟩, ⟨2, "S2", ["P3"]⟩], 2, 2, 2⟩
    (by decide)

/-- The custom-performance pass of `extract_producers` is a fold of
`addProducer` over the flattened stream of matching entries' artists. -/
theorem perfs_foldl_eq :
    ∀ (perfs : List Performance) (init : List ProducerRef),
      perfs.foldl
          (fun acc performance =>
            if isProducerLabel performance.label then
              performance.artists.foldl (fun acc2 a => addProducer acc2 (toRef a)) acc
            else acc)
          init
        = (((perfs.filter (fun performance => isProducerLabel performance.label)).map
              (fun performance => performance.artists.map toRef)).flatten).foldl addProducer init := by
  intro perfs
  induction perfs with
  | nil => intro init; rfl
  | cons pf rest ih =>
    intro init
    by_cases hl : isProducerLabel pf.label = true
    · simp only [List.foldl_cons, List.filter_cons, hl, if_true, List.map_cons,
        List.flatten_cons, List.foldl_append]
      rw [ih, List.foldl_map]
    · rw [Bool.not_eq_true] at hl
      simp only [List.foldl_cons, List.filter_cons, hl, Bool.false_eq_true, if_false]
      rw [ih]

/-- Folding `addProducer` preserves distinctness of the accumulated ids. -/
theorem addProducer_foldl_nodup :
    ∀ (l : List ProducerRef) (acc : List ProducerRef),
      (acc.map (fun p => p.id)).Nodup →
      ((l.foldl addProducer acc).map (fun p => p.id)).Nodup := by
  intro l
  induction l with
  | nil => intro acc h; exact h
  | cons r rest ih =>
    intro acc h
    rw [List.foldl_cons]
    refine ih (addProducer acc r) ?_
    unfold addProducer
    by_cases hmem : acc.any (fun p => p.id == r.id) = true
    · rw [if_pos hmem]; exact h
    · rw [if_neg hmem]
      rw [List.map_append, List.nodup_append]
      refine ⟨h, by simp, ?_⟩
      intro x hx hx1
      simp only [List.map_cons, List.map_nil, List.mem_singleton] at hx1
      subst hx1
      rcases List.mem_map.mp hx with ⟨p, hp, hpid⟩
      exact hmem (List.any_eq_true.mpr ⟨p, hp, by simp [hpid]⟩)

/-- C4: `extract_producers` returns producers with pairwise-distinct ids,
its result is exactly the first-seen-order deduplication of the stream of
custom-performance producers followed by the producer-artist list, and a
missing url field becomes the empty string. -/
theorem extract_producers_spec (sd : Option SongDetails) :
    ((extract_producers sd).map (fun p => p.id)).Nodup ∧
      extract_producers sd = firstSeenDedup ((sd.map specProducerStream).getD []) ∧
      ∀ (i : Nat) (n : String), toRef ⟨i, n, none⟩ = ⟨toString i, n, ""⟩ := by
  have hchar : extract_producers sd = firstSeenDedup ((sd.map specProducerStream).getD []) := by
    cases sd with
    | none => rfl
    | some d =>
      unfold extract_producers specProducerStream firstSeenDedup
      cases hc : d.custom_performances <;> cases hp : d.producer_artists <;>
        simp [hc, hp, List.foldl_append, perfs_foldl_eq, List.foldl_map]
  refine ⟨?_, hchar, fun i n => rfl⟩
  rw [hchar]
  exact addProducer_foldl_nodup _ [] (by simp)

/-- Key test as membership in the key list. -/
theorem any_key_iff (m : List (String × NodeState)) (k : String) :
    m.any (fun e => e.1 == k) = true ↔ k ∈ m.map Prod.fst := by
  rw [List.any_eq_true]
  constructor
  · rintro ⟨e, he, hk⟩
    exact List.mem_map.mpr ⟨e, he, by simpa using hk⟩
  · intro h
    rcases List.mem_map.mp h with ⟨e, he, hk⟩
    exact ⟨e, he, by simp [hk]⟩

/-- An update keeps the key list, except that a fresh key is appended. -/
theorem setNode_fst (m : List (String × NodeState)) (k : String) (v : NodeState) :
    (setNode m k v).map Prod.fst
      = if m.any (fun e => e.1 == k) = true then m.map Prod.fst
        else m.map Prod.fst ++ [k] := by
  unfold setNode
  by_cases hp : m.any (fun e => e.1 == k) = true
  · rw [if_pos hp, if_pos hp, List.map_map]
    apply List.map_congr_left
    intro e he
    by_cases h0 : (e.1 == k) = true
    · have hek : e.1 = k := by simpa using h0
      simp [Function.comp, h0, hek]
    · simp [Function.comp, h0]
  · rw [if_neg hp, if_neg hp, List.map_append]
    rfl

/-- Reading a stored key. -/
theorem getNode_eq_of_find {m : List (String × NodeState)} {k : String}
    {e0 : String × NodeState} (hf : m.find? (fun e => e.1 == k) = some e0) :
    getNode m k = e0.2 := by
  unfold getNode
  rw [hf]

/-- Reading an absent key gives the default. -/
theorem getNode_default_of_none {m : List (String × NodeState)} {k : String}
    (hf : m.find? (fun e => e.1 == k) = none) : getNode m k = defaultNode := by
  unfold getNode
  rw [hf]

/-- A key outside the key list is not found. -/
theorem find_none_of_not_mem_fst {m : List (String × NodeState)} {k : String}
    (h : k ∉ m.map Prod.fst) : m.find? (fun e => e.1 == k) = none := by
  rw [List.find?_eq_none]
  intro e he hk
  exact h (List.mem_map.mpr ⟨e, he, by simpa using hk⟩)

/-- An id outside the id list of a stream is not found. -/
theorem findSeen_none_of_not_mem {seen : List ProducerRef} {k : String}
    (h : k ∉ seen.map (fun q => q.id)) : seen.find? (fun q => q.id == k) = none := by
  rw [List.find?_eq_none]
  intro q hq hk
  exact h (List.mem_map.mpr ⟨q, hq, by simpa using hk⟩)

/-- The id written by the per-producer update. -/
theorem stepState_id (sid : Nat) (sname : String) (pids : List String)
    (p : ProducerRef) (st : NodeState) :
    (stepState sid sname pids p st).id = if st.id = none then some p.id else st.id := by
  unfold stepState
  by_cases h : st.id = none <;> simp [h]

/-- The name written by the per-producer update. -/
theorem stepState_name (sid : Nat) (sname : String) (pids : List String)
    (p : ProducerRef) (st : NodeState) :
    (stepState sid sname pids p st).name = if st.id = none then some p.name else st.name := by
  unfold stepState
  by_cases h : st.id = none <;> simp [h]

/-- The url written by the per-producer update. -/
theorem stepState_url (sid : Nat) (sname : String) (pids : List String)
    (p : ProducerRef) (st : NodeState) :
    (stepState sid sname pids p st).url = if st.id = none then some p.url else st.url := by
  unfold stepState
  by_cases h : st.id = none <;> simp [h]

/-- The first-occurrence invariant is preserved by one producer update. -/
theorem nameInv_step (seen : List ProducerRef) (m : List (String × NodeState))
    (sid : Nat) (sname : String) (pids : List String) (p : ProducerRef)
    (h : nameInv seen m) : nameInv (seen ++ [p]) (producerStep sid sname pids m p) := by
  obtain ⟨hkeys, hent⟩ := h
  unfold producerStep
  constructor
  · intro k
    rw [setNode_fst]
    by_cases hp : m.any (fun e => e.1 == p.id) = true
    · rw [if_pos hp]
      have hpidmem : p.id ∈ seen.map (fun q => q.id) :=
        (hkeys p.id).mp ((any_key_iff m p.id).mp hp)
      rw [hkeys k, List.map_append]
      constructor
      · intro hk
        exact List.mem_append.mpr (Or.inl hk)
      · intro hk
        rcases List.mem_append.mp hk with hk | hk
        · exact hk
        · simp only [List.map_cons, List.map_nil, List.mem_singleton] at hk
          subst hk
          exact hpidmem
    · rw [if_neg hp, List.map_append]
      simp only [List.mem_append, List.map_cons, List.map_nil, List.mem_singleton]
      rw [hkeys k]
  · intro e' he'
    rcases setNode_mem he' with heq | hmem
    · rw [heq]
      by_cases hp : m.any (fun e => e.1 == p.id) = true
      · have hsome : (m.find? (fun e => e.1 == p.id)).isSome :=
          List.find?_isSome.mpr (List.any_eq_true.mp hp)
        rcases Option.isSome_iff_exists.mp hsome with ⟨e0, hf⟩
        have he0 : e0 ∈ m := List.mem_of_find?_eq_some hf
        have he0k : e0.1 = p.id := by simpa using List.find?_some hf
        have hget : getNode m p.id = e0.2 := getNode_eq_of_find hf
        obtain ⟨hid0, p0, hfp0, hname0, hurl0⟩ := hent e0 he0
        have hidne : ¬(getNode m p.id).id = none := by
          rw [hget, hid0]
          simp
        constructor
        · show (stepState sid sname pids p (getNode m p.id)).id = some p.id
          rw [stepState_id, if_neg hidne, hget, hid0, he0k]
        · refine ⟨p0, ?_, ?_, ?_⟩
          · show (seen ++ [p]).find? (fun q => q.id == p.id) = some p0
            have hfs : seen.find? (fun q => q.id == p.id) = some p0 := by
              rw [← he0k]
              exact hfp0
            rw [List.find?_append, hfs]
            rfl
          · show (stepState sid sname pids p (getNode m p.id)).name = some p0.name
            rw [stepState_name, if_neg hidne, hget]
            exact hname0
          · show (stepState sid sname pids p (getNode m p.id)).url = some p0.url
            rw [stepState_url, if_neg hidne, hget]
            exact hurl0
      · have hnotmem : p.id ∉ m.map Prod.fst := fun hmm => hp ((any_key_iff m p.id).mpr hmm)
        have hnone : m.find? (fun e => e.1 == p.id) = none := find_none_of_not_mem_fst hnotmem
        have hget : getNode m p.id = defaultNode := getNode_default_of_none hnone
        have hidnone : (getNode m p.id).id = none := by
          rw [hget]
          rfl
        have hseennone : seen.find? (fun q => q.id == p.id) = none := by
          apply findSeen_none_of_not_mem
          intro hmem2
          exact hp ((any_key_iff m p.id).mpr ((hkeys p.id).mpr hmem2))
        constructor
        · show (stepState sid sname pids p (getNode m p.id)).id = some p.id
          rw [stepState_id, if_pos hidnone]
        · refine ⟨p, ?_, ?_, ?_⟩
          · show (seen ++ [p]).find? (fun q => q.id == p.id) = some p
            rw [List.find?_append, hseennone]
            simp
          · show (stepState sid sname pids p (getNode m p.id)).name = some p.name
            rw [stepState_name, if_pos hidnone]
          · show (stepState sid sname pids p (getNode m p.id)).url = some p.url
            rw [stepState_url, if_pos hidnone]
    · obtain ⟨hid0, p0, hfp0, hname0, hurl0⟩ := hent e' hmem
      refine ⟨hid0, p0, ?_, hname0, hurl0⟩
      rw [List.find?_append, hfp0]
      rfl

/-- The first-occurrence invariant after the inner producer loop. -/
theorem nameInv_fold_producers (sid : Nat) (sname : String) (pids : List String) :
    ∀ (producers : List ProducerRef) (seen : List ProducerRef)
      (m : List (String × NodeState)),
      nameInv seen m →
      nameInv (seen ++ producers) (producers.foldl (producerStep sid sname pids) m) := by
  intro producers
  induction producers with
  | nil => intro seen m h; simpa using h
  | cons p ps ih =>
    intro seen m h
    have h1 := nameInv_step seen m sid sname pids p h
    have h2 := ih (seen ++ [p]) (producerStep sid sname pids m p) h1
    rw [List.foldl_cons]
    have hassoc : seen ++ [p] ++ ps = seen ++ p :: ps := by
      rw [List.append_assoc]
      rfl
    rw [← hassoc]
    exact h2

/-- The first-occurrence invariant after the full song loop. -/
theorem nameInv_fold_records :
    ∀ (records : List SongCreditRecord) (seen : List ProducerRef)
      (m : List (String × NodeState)),
      nameInv seen m →
      nameInv (seen ++ effStream records) (records.foldl songStep m) := by
  intro records
  induction records with
  | nil => intro seen m h; simpa [effStream] using h
  | cons r rs ih =>
    intro seen m h
    rw [List.foldl_cons]
    unfold songStep
    by_cases hlen : r.producers.length < 2
    · rw [if_pos hlen]
      have h2 := ih seen m h
      have heff : effStream (r :: rs) = effStream rs := by
        unfold effStream
        rw [List.map_cons, List.flatten_cons, if_pos hlen, List.nil_append]
      rw [heff]
      exact h2
    · rw [if_neg hlen]
      have h1 := nameInv_fold_producers r.song_id r.song_name
        (r.producers.map (fun p => p.id)) r.producers seen m h
      have h2 := ih (seen ++ r.producers) _ h1
      have heff : effStream (r :: rs) = r.producers ++ effStream rs := by
        unfold effStream
        rw [List.map_cons, List.flatten_cons, if_neg hlen]
      rw [heff, ← List.append_assoc]
      exact h2

/-- The invariant holds for the empty stream and the empty map. -/
theorem nameInv_nil : nameInv [] [] := by
  constructor
  · intro k
    simp
  · intro e he
    simp at he

/-- Every node of the built network records its key as its id and takes
its name and url from the first occurrence of that id in the processed
producer stream. -/
theorem build_name_url (records : List SongCreditRecord) (k : String)
    (node : ProducerNode) (hmem : (k, node) ∈ build_producer_network records) :
    node.id = some k ∧
      node.name = (firstOcc records k).map (fun p => p.name) ∧
      node.url = (firstOcc records k).map (fun p => p.url) := by
  have hinv := nameInv_fold_records records [] [] nameInv_nil
  rw [List.nil_append] at hinv
  unfold build_producer_network at hmem
  rcases List.mem_map.mp hmem with ⟨e, he, heq⟩
  obtain ⟨hkeys, hent⟩ := hinv
  obtain ⟨hid, p, hfind, hname, hurl⟩ := hent e he
  have hk : e.1 = k := congrArg Prod.fst heq
  have hn : node = finalizeNode e.2 := (congrArg Prod.snd heq).symm
  have hfo : firstOcc records k = some p := by
    unfold firstOcc
    rw [← hk]
    exact hfind
  rw [hn, hfo]
  refine ⟨?_, ?_, ?_⟩
  · show e.2.id = some k
    rw [hid, hk]
  · show e.2.name = some p.name
    exact hname
  · show e.2.url = some p.url
    exact hurl

/-- Key lookup commutes with forgetting names and urls. -/
theorem find_map_strip (m : List (String × NodeState)) (k : String) :
    (m.map (fun e => (e.1, stripSt e.2))).find? (fun e => e.1 == k)
      = (m.find? (fun e => e.1 == k)).map (fun e => (e.1, stripSt e.2)) := by
  rw [List.find?_map]
  rfl

/-- Maps equal after forgetting names and urls read equal stripped values. -/
theorem strip_getNode {m1 m2 : List (String × NodeState)} (k : String)
    (h : m1.map (fun e => (e.1, stripSt e.2)) = m2.map (fun e => (e.1, stripSt e.2))) :
    stripSt (getNode m1 k) = stripSt (getNode m2 k) := by
  have h1 := find_map_strip m1 k
  rw [h, find_map_strip m2 k] at h1
  unfold getNode
  cases hf1 : m1.find? (fun e => e.1 == k) with
  | none =>
    cases hf2 : m2.find? (fun e => e.1 == k) with
    | none => rfl
    | some e2 =>
      rw [hf1, hf2] at h1
      simp at h1
  | some e1 =>
    cases hf2 : m2.find? (fun e => e.1 == k) with
    | none =>
      rw [hf1, hf2] at h1
      simp at h1
    | some e2 =>
      rw [hf1, hf2] at h1
      simp only [Option.map] at h1
      exact (congrArg Prod.snd (Option.some.inj h1)).symm

/-- The per-producer update depends on the producer only through its id and
on the state only through its stripped part, once names and urls are
forgotten. -/
theorem strip_stepState (sid : Nat) (sname : String) (pids : List String)
    (p q : ProducerRef) (hpq : q.id = p.id) {st1 st2 : NodeState}
    (h : stripSt st1 = stripSt st2) :
    stripSt (stepState sid sname pids p st1) = stripSt (stepState sid sname pids q st2) := by
  have hid0 := congrArg NodeState.id h
  have hed0 := congrArg NodeState.edges h
  have htot0 := congrArg NodeState.total_collaborations h
  have huni0 := congrArg NodeState.unique_collaborators h
  have hid : st1.id = st2.id := hid0
  have hed : st1.edges = st2.edges := hed0
  have htot : st1.total_collaborations = st2.total_collaborations := htot0
  have huni : st1.unique_collaborators = st2.unique_collaborators := huni0
  unfold stepState stripSt
  by_cases h1 : st1.id = none
  · have h2 : st2.id = none := by rw [← hid]; exact h1
    rw [if_pos h1, if_pos h2]
    simp [hpq, hed, htot, huni]
  · have h2 : ¬ st2.id = none := by rw [← hid]; exact h1
    rw [if_neg h1, if_neg h2]
    simp [hpq, hid, hed, htot, huni]

/-- Writing stripped-equal values at the same key into stripped-equal maps
gives stripped-equal maps. -/
theorem strip_setNode {m1 m2 : List (String × NodeState)} (k : String)
    {v1 v2 : NodeState}
    (hm : m1.map (fun e => (e.1, stripSt e.2)) = m2.map (fun e => (e.1, stripSt e.2)))
    (hv : stripSt v1 = stripSt v2) :
    (setNode m1 k v1).map (fun e => (e.1, stripSt e.2))
      = (setNode m2 k v2).map (fun e => (e.1, stripSt e.2)) := by
  have hany : m1.any (fun e => e.1 == k) = m2.any (fun e => e.1 == k) := by
    have h1 : (m1.map (fun e => (e.1, stripSt e.2))).any (fun e => e.1 == k)
        = m1.any (fun e => e.1 == k) := by
      rw [List.any_map]
      rfl
    have h2 : (m2.map (fun e => (e.1, stripSt e.2))).any (fun e => e.1 == k)
        = m2.any (fun e => e.1 == k) := by
      rw [List.any_map]
      rfl
    rw [← h1, ← h2, hm]
  have hupd : ∀ (m : List (String × NodeState)) (v : NodeState),
      (m.map (fun e => if e.1 == k then (k, v) else e)).map (fun e => (e.1, stripSt e.2))
        = (m.map (fun e => (e.1, stripSt e.2))).map
            (fun e => if e.1 == k then (k, stripSt v) else e) := by
    intro m v
    rw [List.map_map, List.map_map]
    apply List.map_congr_left
    intro e he
    by_cases h0 : (e.1 == k) = true <;> simp [Function.comp, h0]
  unfold setNode
  rw [hany]
  by_cases hp : m2.any (fun e => e.1 == k) = true
  · rw [if_pos hp, if_pos hp, hupd, hupd, hm, hv]
  · rw [if_neg hp, if_neg hp, List.map_append, List.map_append, hm]
    show _ ++ [(k, stripSt v1)] = _ ++ [(k, stripSt v2)]
    rw [hv]

/-- The per-producer map update, after forgetting names and urls, depends
only on the producer's id and the stripped map. -/
theorem strip_producerStep (sid : Nat) (sname : String) (pids : List String)
    {m1 m2 : List (String × NodeState)} (p q : ProducerRef) (hpq : q.id = p.id)
    (hm : m1.map (fun e => (e.1, stripSt e.2)) = m2.map (fun e => (e.1, stripSt e.2))) :
    (producerStep sid sname pids m1 p).map (fun e => (e.1, stripSt e.2))
      = (producerStep sid sname pids m2 q).map (fun e => (e.1, stripSt e.2)) := by
  unfold producerStep
  rw [hpq]
  exact strip_setNode p.id hm
    (strip_stepState sid sname pids p q hpq (strip_getNode p.id hm))

/-- The inner producer loop, after forgetting names and urls, is unchanged
when every producer's name and url are blanked. -/
theorem strip_fold_producers (sid : Nat) (sname : String) (pids : List String) :
    ∀ (producers : List ProducerRef) (m1 m2 : List (String × NodeState)),
      m1.map (fun e => (e.1, stripSt e.2)) = m2.map (fun e => (e.1, stripSt e.2)) →
      (producers.foldl (producerStep sid sname pids) m1).map (fun e => (e.1, stripSt e.2))
        = ((producers.map erasePR).foldl (producerStep sid sname pids) m2).map
            (fun e => (e.1, stripSt e.2)) := by
  intro producers
  induction producers with
  | nil => intro m1 m2 h; simpa using h
  | cons p ps ih =>
    intro m1 m2 h
    rw [List.map_cons, List.foldl_cons, List.foldl_cons]
    exact ih _ _ (strip_producerStep sid sname pids p (erasePR p) rfl h)

/-- One song step, after forgetting names and urls, is unchanged when the
record's producers have blanked names and urls. -/
theorem strip_songStep {m1 m2 : List (String × NodeState)} (r : SongCreditRecord)
    (h : m1.map (fun e => (e.1, stripSt e.2)) = m2.map (fun e => (e.1, stripSt e.2))) :
    (songStep m1 r).map (fun e => (e.1, stripSt e.2))
      = (songStep m2 (eraseRecord r)).map (fun e => (e.1, stripSt e.2)) := by
  unfold songStep
  by_cases hlen : r.producers.length < 2
  · have hlen2 : (eraseRecord r).producers.length < 2 := by
      unfold eraseRecord
      simpa using hlen
    rw [if_pos hlen, if_pos hlen2]
    exact h
  · have hlen2 : ¬ (eraseRecord r).producers.length < 2 := by
      unfold eraseRecord
      simpa using hlen
    rw [if_neg hlen, if_neg hlen2]
    have hpids : (eraseRecord r).producers.map (fun p => p.id)
        = r.producers.map (fun p => p.id) := by
      unfold eraseRecord
      show (r.producers.map erasePR).map (fun p => p.id) = _
      rw [List.map_map]
      rfl
    show (r.producers.foldl
          (producerStep r.song_id r.song_name (r.producers.map (fun p => p.id))) m1).map
          (fun e => (e.1, stripSt e.2))
        = ((eraseRecord r).producers.foldl
            (producerStep (eraseRecord r).song_id (eraseRecord r).song_name
              ((eraseRecord r).producers.map (fun p => p.id))) m2).map
            (fun e => (e.1, stripSt e.2))
    rw [hpids]
    exact strip_fold_producers r.song_id r.song_name (r.producers.map (fun p => p.id))
      r.producers m1 m2 h

/-- The whole song loop, after forgetting names and urls, is unchanged when
all producer names and urls are blanked. -/
theorem strip_fold_records :
    ∀ (records : List SongCreditRecord) (m1 m2 : List (String × NodeState)),
      m1.map (fun e => (e.1, stripSt e.2)) = m2.map (fun e => (e.1, stripSt e.2)) →
      (records.foldl songStep m1).map (fun e => (e.1, stripSt e.2))
        = ((records.map eraseRecord).foldl songStep m2).map (fun e => (e.1, stripSt e.2)) := by
  intro records
  induction records with
  | nil => intro m1 m2 h; simpa using h
  | cons r rs ih =>
    intro m1 m2 h
    rw [List.map_cons, List.foldl_cons, List.foldl_cons]
    exact ih _ _ (strip_songStep r h)

/-- The built network, with names and urls forgotten, does not depend on
the producers' names and urls. -/
theorem strip_build (records : List SongCreditRecord) :
    (build_producer_network records).map (fun e => (e.1, stripNode e.2))
      = (build_producer_network (eraseRecords records)).map (fun e => (e.1, stripNode e.2)) := by
  unfold build_producer_network eraseRecords
  have comp : ∀ (s : List (String × NodeState)),
      (s.map (fun e => (e.1, finalizeNode e.2))).map (fun e => (e.1, stripNode e.2))
        = (s.map (fun e => (e.1, stripSt e.2))).map (fun e => (e.1, finalizeNode e.2)) := by
    intro s
    rw [List.map_map, List.map_map]
    rfl
  rw [comp, comp, strip_fold_records records [] [] rfl]

/-- C8: the first occurrence of a producer id in the processed records sets
that node's name and url permanently (later occurrences of the same id,
even with different names or urls, never overwrite them), and every other
node field behaves as if later occurrences carried the same name and url:
with names and urls forgotten, the built network is unchanged when all
producer names and urls in the input are blanked. -/
theorem first_occurrence_sets_name_url (records : List SongCreditRecord)
    (k : String) (node : ProducerNode)
    (hmem : (k, node) ∈ build_producer_network records) :
    node.id = some k ∧
      node.name = (firstOcc records k).map (fun p => p.name) ∧
      node.url = (firstOcc records k).map (fun p => p.url) ∧
      (build_producer_network records).map (fun e => (e.1, stripNode e.2))
        = (build_producer_network (eraseRecords records)).map (fun e => (e.1, stripNode e.2)) := by
  obtain ⟨h1, h2, h3⟩ := build_name_url records k node hmem
  exact ⟨h1, h2, h3, strip_build records⟩

/-- Witness for C8: the id P1 occurs in two records with different names
and urls; its node keeps the first-occurrence name Alice and url u1. -/
theorem first_occurrence_sets_name_url_witness :
    (⟨some "P1", some "Alice", some "u1", [⟨1, "S1", ["P2"]⟩, ⟨2, "S2", ["P2"]⟩], 2, 2, 1⟩ :
          ProducerNode).id = some "P1" ∧
      (⟨some "P1", some "Alice", some "u1", [⟨1, "S1", ["P2"]⟩, ⟨2, "S2", ["P2"]⟩], 2, 2, 1⟩ :
          ProducerNode).name
        = (firstOcc
            [⟨1, "S1", "a", [⟨"P1", "Alice", "u1"⟩, ⟨"P2", "B", "u2"⟩], 2⟩,
             ⟨2, "S2", "a", [⟨"P1", "Alicia", "u9"⟩, ⟨"P2", "B", "u2"⟩], 2⟩] "P1").map
            (fun p => p.name) ∧
      (⟨some "P1", some "Alice", some "u1", [⟨1, "S1", ["P2"]⟩, ⟨2, "S2", ["P2"]⟩], 2, 2, 1⟩ :
          ProducerNode).url
        = (firstOcc
            [⟨1, "S1", "a", [⟨"P1", "Alice", "u1"⟩, ⟨"P2", "B", "u2"⟩], 2⟩,
             ⟨2, "S2", "a", [⟨"P1", "Alicia", "u9"⟩, ⟨"P2", "B", "u2"⟩], 2⟩] "P1").map
            (fun p => p.url) ∧
      (build_producer_network
            [⟨1, "S1", "a", [⟨"P1", "Alice", "u1"⟩, ⟨"P2", "B", "u2"⟩], 2⟩,
             ⟨2, "S2", "a", [⟨"P1", "Alicia", "u9"⟩, ⟨"P2", "B", "u2"⟩], 2⟩]).map
          (fun e => (e.1, stripNode e.2))
        = (build_producer_network (eraseRecords
            [⟨1, "S1", "a", [⟨"P1", "Alice", "u1"⟩, ⟨"P2", "B", "u2"⟩], 2⟩,
             ⟨2, "S2", "a", [⟨"P1", "Alicia", "u9"⟩, ⟨"P2", "B", "u2"⟩], 2⟩])).map
            (fun e => (e.1, stripNode e.2)) :=
  first_occurrence_sets_name_url
    [⟨1, "S1", "a", [⟨"P1", "Alice", "u1"⟩, ⟨"P2", "B", "u2"⟩], 2⟩,
     ⟨2, "S2", "a", [⟨"P1", "Alicia", "u9"⟩, ⟨"P2", "B", "u2"⟩], 2⟩]
    "P1"
    ⟨some "P1", some "Alice", some "u1", [⟨1, "S1", ["P2"]⟩, ⟨2, "S2", ["P2"]⟩], 2, 2, 1⟩
    (by decide)
